import Mathlib

/-
  Shallow embedding of src/WEATHER.ino (AyushMohaptra/WEATHER-UPDATES).

  The core modelled here is the sampling/aggregation engine and the
  rate-limited delivery pipeline of the `loop()` function, plus the helper
  functions `uploadToThingSpeak` and `calculateZambretti`.

  Modelling conventions:
  - C `float`/`double` values are modelled by `FVal := Option ℚ`, where
    `none` stands for a non-finite value (NaN or infinity).  Arithmetic on
    `FVal` propagates `none`; comparisons against `none` are `false`,
    matching IEEE NaN comparison semantics used by the source's
    `isnan` guards and `<`/`>` tests.
  - `exp` (used only inside the absolute-humidity formula, line 307) is a
    transcendental function; it is carried as an explicit function
    parameter `expFn : ℚ → ℚ` so that every definition stays executable.
    No claim depends on its values.
  - `millis()` is an unsigned 32-bit counter; the source computes elapsed
    time as `millis() - last`, i.e. subtraction modulo 2^32 (`usub`).
    Each distinct `millis()` call site inside one flush cycle is passed in
    as an explicit time parameter.
  - The network call `ThingSpeak.writeFields` is an external capability;
    its integer response code is passed in as an oracle parameter, and the
    payload construction performed by `uploadToThingSpeak` (lines 372-391)
    is modelled by the `Payload` structure.
  - The rolling debug log (`addLog`) and the Wi-Fi reconnect throttle
    (lines 294-300, touching only `lastWifiRetry`) are pure observability
    or connectivity-collaborator side effects outside the derived-reading
    pipeline; they are not part of the modelled state.
-/

namespace Weather

/-- A C floating-point value: `none` models NaN / non-finite. -/
abbrev FVal : Type := Option ℚ

/-- Float addition, propagating non-finite values. -/
def addF : FVal → FVal → FVal
  | some a, some b => some (a + b)
  | _, _ => none

/-- Float subtraction, propagating non-finite values. -/
def subF : FVal → FVal → FVal
  | some a, some b => some (a - b)
  | _, _ => none

/-- Float multiplication, propagating non-finite values. -/
def mulF : FVal → FVal → FVal
  | some a, some b => some (a * b)
  | _, _ => none

/-- Float division; division by zero yields a non-finite value. -/
def divF : FVal → FVal → FVal
  | some a, some b => if b = 0 then none else some (a / b)
  | _, _ => none

/-- Lift a rational model of `exp` to `FVal`. -/
def expF (f : ℚ → ℚ) : FVal → FVal
  | some a => some (f a)
  | none => none

/-- C comparison `a < b`: any comparison involving NaN is false. -/
def fltF : FVal → FVal → Bool
  | some a, some b => decide (a < b)
  | _, _ => false

/-- C test `v != 0`: true for NaN (NaN compares unequal to everything). -/
def fne0 : FVal → Bool
  | some a => decide (a ≠ 0)
  | none => true

/-- `#define HISTORY_SIZE 18` (line 29). -/
def HISTORY_SIZE : ℕ := 18

/-- `#define BUFFER_SIZE 150` (line 37). -/
def BUFFER_SIZE : ℕ := 150

/-- `const float TEMP_OFFSET = 0;` (line 28). -/
def TEMP_OFFSET : ℚ := 0

/-- `const unsigned long thingSpeakInterval = 15000;` (line 76). -/
def thingSpeakInterval : ℕ := 15000

/-- Unsigned 32-bit subtraction `a - b`, as in `millis() - last`. -/
def usub (a b : ℕ) : ℕ := (a + 2 ^ 32 - b % 2 ^ 32) % 2 ^ 32

/-- `struct WeatherData` (lines 33-36). -/
structure WeatherData where
  temp : FVal
  dhtTemp : ℚ
  hum : ℚ
  press : FVal
  zambretti : ℤ
  absHum : FVal
  dewPoint : FVal
deriving DecidableEq

/-- State of the pressure-history ring: `pressureHistory`, `histIndex`,
`histFull` (lines 58-60). -/
structure RingState where
  hist : ℕ → FVal
  idx : ℕ
  full : Bool

/-- Initial ring state: C++ zero-initialised globals (line 58-60). -/
def initRing : RingState where
  hist := fun _ => some 0
  idx := 0
  full := false

/-- The history-sampling step (lines 275-280), with the capacity `H`
(`HISTORY_SIZE` in the source) kept as a parameter:
`pressureHistory[histIndex] = v; histIndex = (histIndex + 1) % H;
if (histIndex == 0) histFull = true;`. -/
def recordPressure (H : ℕ) (st : RingState) (v : FVal) : RingState :=
  let h := Function.update st.hist st.idx v
  let i := (st.idx + 1) % H
  ⟨h, i, if i = 0 then true else st.full⟩

/-- Run a sequence of `recordPressure` calls. -/
def runRing (H : ℕ) (st : RingState) (vs : List FVal) : RingState :=
  vs.foldl (recordPressure H) st

/-- The pressure delta as read by `calculateZambretti` (lines 404-405):
defined only once the wrap flag is set, otherwise insufficient data. -/
def histDelta (st : RingState) (p : FVal) : Option FVal :=
  if st.full then some (subF p (st.hist st.idx)) else none

/-- `int calculateZambretti(float currentP)` (lines 403-410). -/
def calculateZambretti (st : RingState) (currentP : FVal) : ℤ :=
  if st.full = false then 0
  else
    let delta := subF currentP (st.hist st.idx)
    if fltF delta (some (-(8 / 5))) then 1
    else if fltF currentP (some 1000) then 2
    else if fltF (some (8 / 5)) delta then 4
    else 3

/-- Modelled from the spec: the classifier policy of spec section 4.3,
`classify(currentPressure, historyDelta)`, first match wins:
no history ⇒ 0; delta < −1.6 ⇒ 1; pressure < 1000 ⇒ 2; delta > 1.6 ⇒ 4;
otherwise ⇒ 3.  Used only to compare against `calculateZambretti`. -/
def classifySpec (p : ℚ) (d : Option ℚ) : ℤ :=
  match d with
  | none => 0
  | some delta =>
    if delta < -(8 / 5) then 1
    else if p < 1000 then 2
    else if (8 / 5 : ℚ) < delta then 4
    else 3

/-- The mutable global state touched by the modelled parts of `loop()`:
`tempSum`, `pressSum`, `sampleCount`, `currentHum`, `currentDhtTemp`,
`offlineBuffer`/`bufferCount`, `lastThingSpeakWrite`, `wifiStrength`, and
the pressure-history ring (lines 38-39, 58-63, 75). -/
structure SysState where
  tempSum : FVal
  pressSum : FVal
  sampleCount : ℕ
  currentHum : ℚ
  currentDhtTemp : ℚ
  offlineBuffer : List WeatherData
  lastThingSpeakWrite : ℕ
  wifiStrength : ℤ
  ring : RingState

/-- The 1-second fast-sample block (lines 245-250):
`tempSum += bmp.readTemperature(); pressSum += bmp.readPressure()/100.0F;
sampleCount++;`.  The raw sensor readings are the parameters; note there
is no validity guard here. -/
def fastSample (st : SysState) (bmpT bmpP : FVal) : SysState :=
  { st with
    tempSum := addF st.tempSum bmpT
    pressSum := addF st.pressSum (divF bmpP (some 100))
    sampleCount := st.sampleCount + 1 }

/-- Run a sequence of fast-sample (accumulate) calls; each list entry is a
raw (temperature, pressure) pair. -/
def runFast (st : SysState) (rs : List (FVal × FVal)) : SysState :=
  rs.foldl (fun s r => fastSample s r.1 r.2) st

/-- The 30-second slow-sample block (lines 253-272): the DHT humidity and
temperature update the cached values only when neither is NaN;
`wifiStrength` is refreshed unconditionally. -/
def slowSample (st : SysState) (h t : FVal) (rssi : ℤ) : SysState :=
  match h, t with
  | some hv, some tv =>
    { st with currentHum := hv, currentDhtTemp := tv, wifiStrength := rssi }
  | _, _ => { st with wifiStrength := rssi }

/-- The offline-buffer push, capacity `B` (`BUFFER_SIZE` in the source),
as performed at lines 321-328 and 357-364: if there is room, append at
index `bufferCount`; otherwise shift every entry down one slot (dropping
index 0) and write the new entry at the last slot. -/
def bufPushB (B : ℕ) (buf : List WeatherData) (w : WeatherData) :
    List WeatherData :=
  if buf.length < B then buf ++ [w] else buf.tail ++ [w]

/-- The buffer push at the source's fixed capacity. -/
def bufPush (buf : List WeatherData) (w : WeatherData) : List WeatherData :=
  bufPushB BUFFER_SIZE buf w

/-- Derivation of the flush-cycle reading (lines 303-308): averages,
calibration offset, safe humidity, dew point, absolute humidity and
forecast code. -/
def mkReading (expFn : ℚ → ℚ) (st : SysState) : WeatherData :=
  let avgTemp :=
    addF (divF st.tempSum (some (st.sampleCount : ℚ))) (some TEMP_OFFSET)
  let avgPress := divF st.pressSum (some (st.sampleCount : ℚ))
  let safeHum : ℚ := if st.currentHum = 0 then 1 else st.currentHum
  let dewPoint := subF avgTemp (some ((100 - safeHum) / 5))
  let absHum :=
    divF
      (mulF
        (mulF
          (mulF (some (6112 / 1000 : ℚ))
            (expF expFn
              (divF (mulF (some (1767 / 100 : ℚ)) avgTemp)
                (addF avgTemp (some (487 / 2 : ℚ))))))
          (some safeHum))
        (some (21674 / 10000 : ℚ)))
      (addF (some (5463 / 20 : ℚ)) avgTemp)
  { temp := avgTemp
    dhtTemp := st.currentDhtTemp
    hum := st.currentHum
    press := avgPress
    zambretti := calculateZambretti st.ring avgPress
    absHum := absHum
    dewPoint := dewPoint }

/-- One delivery attempt as observed at the sink: the reading sent, the
`secondsAgo` backdating argument, and the response code returned. -/
structure Attempt where
  data : WeatherData
  secondsAgo : ℤ
  resp : ℤ
deriving DecidableEq

/-- The fresh-reading upload block (lines 313-332).  `tCheck` is the
`millis()` value at the rate-limit test (line 313), `tSet` the one stored
into `lastThingSpeakWrite` (line 315), `r` the response code.  Note the
source stores `lastThingSpeakWrite = millis()` before inspecting the
response, i.e. on every attempt; on non-200 the reading is buffered. -/
def freshStep (st : SysState) (w : WeatherData) (tCheck tSet : ℕ)
    (r : ℤ) : SysState × List Attempt :=
  if thingSpeakInterval ≤ usub tCheck st.lastThingSpeakWrite then
    let st1 := { st with lastThingSpeakWrite := tSet }
    if r = 200 then (st1, [⟨w, 0, r⟩])
    else ({ st1 with offlineBuffer := bufPush st1.offlineBuffer w }, [⟨w, 0, r⟩])
  else (st, [])

/-- The backlog-drain block (lines 335-354): if the buffer is non-empty
and the rate limit allows, send the oldest entry with
`lagSeconds = bufferCount * 300`; on 200 pop it (shift down) and store
`lastThingSpeakWrite = millis()` (`tSet`), otherwise leave everything. -/
def drainStep (st : SysState) (tCheck tSet : ℕ) (r : ℤ) :
    SysState × List Attempt :=
  match st.offlineBuffer with
  | [] => (st, [])
  | old :: rest =>
    if thingSpeakInterval ≤ usub tCheck st.lastThingSpeakWrite then
      let lag : ℤ := ((old :: rest).length : ℤ) * 300
      if r = 200 then
        ({ st with offlineBuffer := rest, lastThingSpeakWrite := tSet },
         [⟨old, lag, r⟩])
      else (st, [⟨old, lag, r⟩])
    else (st, [])

/-- The unconditional accumulator reset at line 366:
`tempSum = 0; pressSum = 0; sampleCount = 0;`. -/
def resetAgg (st : SysState) : SysState :=
  { st with tempSum := some 0, pressSum := some 0, sampleCount := 0 }

/-- The 5-minute flush cycle (lines 290-368), restricted to the
derived-reading pipeline (the Wi-Fi reconnect throttle touches only
`lastWifiRetry`).  `wifiUp` is `WiFi.status() == WL_CONNECTED`;
`t1 t2` are the `millis()` values of lines 313/315, `t3 t4` those of
lines 336/341; `r1 r2` the two response-code oracles. -/
def flushCycle (expFn : ℚ → ℚ) (st : SysState) (wifiUp : Bool)
    (t1 t2 t3 t4 : ℕ) (r1 r2 : ℤ) : SysState × List Attempt :=
  if 0 < st.sampleCount then
    let w := mkReading expFn st
    if wifiUp then
      let p1 := freshStep st w t1 t2 r1
      let p2 := drainStep p1.1 t3 t4 r2
      (resetAgg p2.1, p1.2 ++ p2.2)
    else
      (resetAgg { st with offlineBuffer := bufPush st.offlineBuffer w }, [])
  else (st, [])

/-- The ThingSpeak payload assembled by `uploadToThingSpeak`
(lines 372-391): fields 1,2,3,5,6,7 are set only when the value passes
the C test `!= 0`; field 4 (forecast code) and field 8 (RSSI) are always
set; `createdAt` is backdated only when `secondsAgo > 0`. -/
structure Payload where
  field1 : Option FVal
  field2 : Option FVal
  field3 : Option FVal
  field4 : ℤ
  field5 : Option FVal
  field6 : Option FVal
  field7 : Option FVal
  field8 : ℤ
  createdAt : Option ℤ
deriving DecidableEq

/-- `int uploadToThingSpeak(float bmpVal, float dhtVal, float h, float p,
int z, float ah, float dp, int wifiRssi, int secondsAgo)` (lines 372-391),
modelled as the payload it hands to the sink; `nowEpoch` is
`timeClient.getEpochTime()`. -/
def uploadToThingSpeak (bmpVal dhtVal h p : FVal) (z : ℤ) (ah dp : FVal)
    (wifiRssi secondsAgo nowEpoch : ℤ) : Payload where
  field1 := if fne0 bmpVal then some bmpVal else none
  field2 := if fne0 h then some h else none
  field3 := if fne0 p then some p else none
  field4 := z
  field5 := if fne0 ah then some ah else none
  field6 := if fne0 dp then some dp else none
  field7 := if fne0 dhtVal then some dhtVal else none
  field8 := wifiRssi
  createdAt := if 0 < secondsAgo then some (nowEpoch - secondsAgo) else none

/-- A concrete reading used by witnesses and counterexamples. -/
def mkR (n : ℚ) : WeatherData :=
  ⟨some n, n, n, some n, 3, some n, some n⟩

/-- A concrete `exp` model for witnesses (its values are irrelevant). -/
def expW : ℚ → ℚ := fun x => x

/-- A concrete system state with one accumulated sample. -/
def stTest : SysState where
  tempSum := some 25
  pressSum := some 1005
  sampleCount := 1
  currentHum := 50
  currentDhtTemp := 24
  offlineBuffer := []
  lastThingSpeakWrite := 0
  wifiStrength := -60
  ring := initRing

/-- A concrete empty system state. -/
def stZero : SysState where
  tempSum := some 0
  pressSum := some 0
  sampleCount := 0
  currentHum := 0
  currentDhtTemp := 0
  offlineBuffer := []
  lastThingSpeakWrite := 0
  wifiStrength := 0
  ring := initRing

/-- The conditional field-set pattern of `uploadToThingSpeak`:
a field is omitted exactly when its value is exactly zero. -/
lemma condField_eq (v : FVal) :
    ((if fne0 v then some v else none) = (none : Option FVal) ↔ v = some 0) ∧
    ((if fne0 v then some v else none) = some v ↔ v ≠ some 0) := by
  rcases v with _ | a
  · simp [fne0]
  · by_cases ha : a = 0 <;> simp [fne0, ha]

/-- Claim C10: for every delivery, the temperature, humidity, pressure,
absolute-humidity, dew-point and secondary-temperature fields are included
in the payload exactly when the corresponding value is non-zero (a value
of exactly 0 is omitted), while the forecast-code and signal-strength
fields are set unconditionally. -/
theorem claim10_payload_nonzero_fields :
    ∀ (bmpVal dhtVal h p : FVal) (z : ℤ) (ah dp : FVal)
      (wifiRssi secondsAgo nowEpoch : ℤ),
    let P := uploadToThingSpeak bmpVal dhtVal h p z ah dp wifiRssi
      secondsAgo nowEpoch
    ((P.field1 = none ↔ bmpVal = some 0) ∧
      (P.field1 = some bmpVal ↔ bmpVal ≠ some 0)) ∧
    ((P.field2 = none ↔ h = some 0) ∧ (P.field2 = some h ↔ h ≠ some 0)) ∧
    ((P.field3 = none ↔ p = some 0) ∧ (P.field3 = some p ↔ p ≠ some 0)) ∧
    ((P.field5 = none ↔ ah = some 0) ∧ (P.field5 = some ah ↔ ah ≠ some 0)) ∧
    ((P.field6 = none ↔ dp = some 0) ∧ (P.field6 = some dp ↔ dp ≠ some 0)) ∧
    ((P.field7 = none ↔ dhtVal = some 0) ∧
      (P.field7 = some dhtVal ↔ dhtVal ≠ some 0)) ∧
    P.field4 = z ∧ P.field8 = wifiRssi := by
  intro bmpVal dhtVal h p z ah dp wifiRssi secondsAgo nowEpoch
  exact ⟨condField_eq bmpVal, condField_eq h, condField_eq p,
    condField_eq ah, condField_eq dp, condField_eq dhtVal, rfl, rfl⟩

/-- Claim C8: a flush cycle with zero accumulated samples is a no-op for
the derived-reading pipeline: no reading, no delivery attempt, and the
accumulator, queue and rate-limit timestamp are untouched. -/
theorem claim8_zero_sample_noop :
    ∀ (expFn : ℚ → ℚ) (st : SysState) (wifiUp : Bool) (t1 t2 t3 t4 : ℕ)
      (r1 r2 : ℤ), st.sampleCount = 0 →
      flushCycle expFn st wifiUp t1 t2 t3 t4 r1 r2 = (st, []) := by
  intro expFn st wifiUp t1 t2 t3 t4 r1 r2 h
  simp [flushCycle, h]

/-- Witness for C8 at a concrete empty-window state. -/
theorem claim8_witness :
    stZero.sampleCount = 0 ∧
    flushCycle expW stZero true 0 0 0 0 200 200 = (stZero, []) :=
  ⟨rfl, claim8_zero_sample_noop expW stZero true 0 0 0 0 200 200 rfl⟩

/-- Claim C9: whenever the sample count is positive, the flush cycle
resets the accumulator sums and count to zero in every delivery branch
(success, rejection, rate-limit skip, uplink down). -/
theorem claim9_reset_unconditional :
    ∀ (expFn : ℚ → ℚ) (st : SysState) (wifiUp : Bool) (t1 t2 t3 t4 : ℕ)
      (r1 r2 : ℤ), 0 < st.sampleCount →
      (flushCycle expFn st wifiUp t1 t2 t3 t4 r1 r2).1.tempSum = some 0 ∧
      (flushCycle expFn st wifiUp t1 t2 t3 t4 r1 r2).1.pressSum = some 0 ∧
      (flushCycle expFn st wifiUp t1 t2 t3 t4 r1 r2).1.sampleCount = 0 := by
  intro expFn st wifiUp t1 t2 t3 t4 r1 r2 h
  unfold flushCycle
  rw [if_pos h]
  cases wifiUp <;> simp [resetAgg]

/-- Witness for C9 at a concrete one-sample state. -/
theorem claim9_witness :
    (flushCycle expW stTest true 0 0 0 0 500 500).1.tempSum = some 0 ∧
    (flushCycle expW stTest true 0 0 0 0 500 500).1.pressSum = some 0 ∧
    (flushCycle expW stTest true 0 0 0 0 500 500).1.sampleCount = 0 :=
  claim9_reset_unconditional expW stTest true 0 0 0 0 500 500 (by decide)

/-- Counterexample to claim C1: a fresh-reading attempt that returns 500
(non-success) still updates `lastThingSpeakWrite` to the attempt time
(the source stores `millis()` before inspecting the response, line 315),
whereas the claim says the timestamp is left unchanged then. -/
theorem claim1_counterexample :
    (freshStep stTest (mkR 1) 20000 20001 500).2 = [⟨mkR 1, 0, 500⟩] ∧
    (freshStep stTest (mkR 1) 20000 20001 500).1.lastThingSpeakWrite
      = 20001 ∧
    stTest.lastThingSpeakWrite = 0 ∧
    (freshStep stTest (mkR 1) 20000 20001 500).1.lastThingSpeakWrite
      ≠ stTest.lastThingSpeakWrite := by
  refine ⟨by decide, by decide, rfl, by decide⟩

/-- Claim C1 as amended: after a fresh-reading attempt the rate-limit
timestamp is set to the attempt time unconditionally (whatever the
status); after a backlog-drain attempt it is set exactly when the attempt
returned 200, and is left unchanged otherwise. -/
theorem claim1_amended_timestamp_policy :
    (∀ (st : SysState) (w : WeatherData) (tCheck tSet : ℕ) (r : ℤ),
      (freshStep st w tCheck tSet r).1.lastThingSpeakWrite =
        if thingSpeakInterval ≤ usub tCheck st.lastThingSpeakWrite then tSet
        else st.lastThingSpeakWrite) ∧
    (∀ (st : SysState) (tCheck tSet : ℕ) (r : ℤ),
      (drainStep st tCheck tSet r).1.lastThingSpeakWrite =
        if st.offlineBuffer ≠ [] ∧
            thingSpeakInterval ≤ usub tCheck st.lastThingSpeakWrite ∧
            r = 200
          then tSet else st.lastThingSpeakWrite) := by
  constructor
  · intro st w tCheck tSet r
    by_cases hc : thingSpeakInterval ≤ usub tCheck st.lastThingSpeakWrite <;>
      by_cases hr : r = 200 <;> simp [freshStep, hc, hr]
  · intro st tCheck tSet r
    obtain ⟨ts, ps, sc, ch, cd, buf, lw, ws, rg⟩ := st
    cases buf with
    | nil => simp [drainStep]
    | cons old rest =>
      by_cases hc : thingSpeakInterval ≤ usub tCheck lw <;>
        by_cases hr : r = 200 <;> simp [drainStep, hc, hr]

/-- Counterexample to claim C2: feeding a single NaN raw sample to the
accumulator increments the count to 1 (and poisons the sum), whereas the
claim says the count must equal the number of valid readings (0 here). -/
theorem claim2_counterexample :
    (runFast stZero [(none, none)]).sampleCount = 1 ∧
    (runFast stZero [(none, none)]).tempSum = none := by
  exact ⟨rfl, rfl⟩

/-- Claim C2 as amended: every accumulate call increments the sample
count, valid or not (the fast-sample block has no validity guard); the
NaN-discard policy lives in the slow DHT sampling step instead, which
leaves the cached humidity and secondary temperature unchanged whenever
either reading is NaN. -/
theorem claim2_amended_count_policy :
    (∀ (st : SysState) (rs : List (FVal × FVal)),
      (runFast st rs).sampleCount = st.sampleCount + rs.length) ∧
    (∀ (st : SysState) (t : FVal) (rssi : ℤ),
      (slowSample st none t rssi).currentHum = st.currentHum ∧
      (slowSample st none t rssi).currentDhtTemp = st.currentDhtTemp) ∧
    (∀ (st : SysState) (h : FVal) (rssi : ℤ),
      (slowSample st h none rssi).currentHum = st.currentHum ∧
      (slowSample st h none rssi).currentDhtTemp = st.currentDhtTemp) := by
  refine ⟨?_, ?_, ?_⟩
  · intro st rs
    induction rs generalizing st with
    | nil => simp [runFast]
    | cons r rs ih =>
      simp only [runFast, List.foldl_cons] at ih ⊢
      rw [ih]
      simp [fastSample]
      omega
  · intro st t rssi
    cases t <;> simp [slowSample]
  · intro st h rssi
    cases h <;> simp [slowSample]

/-- Claim C4: the offline-queue push appends while below capacity, evicts
index 0 (shifting the rest down, FIFO order preserved) when full, always
retains the newest reading at the tail, never exceeds the capacity, and
on capacity 3 pushing R1..R4 leaves [R2,R3,R4]. -/
theorem claim4_push_policy :
    ∀ (B : ℕ) (buf : List WeatherData) (w : WeatherData),
      (buf.length < B → bufPushB B buf w = buf ++ [w]) ∧
      (¬ buf.length < B → bufPushB B buf w = buf.tail ++ [w]) ∧
      (buf.length ≤ B → 0 < B →
        (bufPushB B buf w).length ≤ B ∧
        (bufPushB B buf w).getLast? = some w) ∧
      bufPushB 3 (bufPushB 3 (bufPushB 3 (bufPushB 3 [] (mkR 1)) (mkR 2))
        (mkR 3)) (mkR 4) = [mkR 2, mkR 3, mkR 4] := by
  intro B buf w
  refine ⟨fun h => by simp [bufPushB, h], fun h => by simp [bufPushB, h],
    fun hle hB => ⟨?_, ?_⟩, by decide⟩
  · by_cases h : buf.length < B <;>
      simp [bufPushB, h, List.length_append, List.length_tail] <;> omega
  · by_cases h : buf.length < B <;> simp [bufPushB, h]

/-- Witness for C4: a non-full push appends at the tail. -/
theorem claim4_witness :
    bufPushB 3 [mkR 1] (mkR 2) = [mkR 1] ++ [mkR 2] :=
  (claim4_push_policy 3 [mkR 1] (mkR 2)).1 (by decide)

/-- Unfolding of the flush cycle when the uplink is available. -/
lemma flushCycle_online (expFn : ℚ → ℚ) (st : SysState) (t1 t2 t3 t4 : ℕ)
    (r1 r2 : ℤ) (hsc : 0 < st.sampleCount) :
    flushCycle expFn st true t1 t2 t3 t4 r1 r2 =
      (resetAgg
        (drainStep (freshStep st (mkReading expFn st) t1 t2 r1).1
          t3 t4 r2).1,
       (freshStep st (mkReading expFn st) t1 t2 r1).2 ++
        (drainStep (freshStep st (mkReading expFn st) t1 t2 r1).1
          t3 t4 r2).2) := by
  simp [flushCycle, hsc]

/-- Unfolding of the flush cycle when the uplink is unavailable. -/
lemma flushCycle_offline (expFn : ℚ → ℚ) (st : SysState) (t1 t2 t3 t4 : ℕ)
    (r1 r2 : ℤ) (hsc : 0 < st.sampleCount) :
    flushCycle expFn st false t1 t2 t3 t4 r1 r2 =
      (resetAgg
        { st with
            offlineBuffer := bufPush st.offlineBuffer (mkReading expFn st) },
       []) := by
  simp [flushCycle, hsc]

/-- The drain step leaves the buffer alone or removes its head. -/
lemma drainStep_buffer_cases (st : SysState) (tCheck tSet : ℕ) (r : ℤ) :
    (drainStep st tCheck tSet r).1.offlineBuffer = st.offlineBuffer ∨
    (drainStep st tCheck tSet r).1.offlineBuffer = st.offlineBuffer.tail := by
  obtain ⟨ts, ps, sc, ch, cd, buf, lw, ws, rg⟩ := st
  cases buf with
  | nil => left; simp [drainStep]
  | cons old rest =>
    by_cases hc : thingSpeakInterval ≤ usub tCheck lw <;>
      by_cases hr : r = 200 <;> simp [drainStep, hc, hr]

/-- Every drain attempt carries a strictly positive `secondsAgo`. -/
lemma drainStep_attempts_lag (st : SysState) (tCheck tSet : ℕ) (r : ℤ) :
    ∀ a ∈ (drainStep st tCheck tSet r).2, a.secondsAgo ≠ 0 := by
  obtain ⟨ts, ps, sc, ch, cd, buf, lw, ws, rg⟩ := st
  cases buf with
  | nil => simp [drainStep]
  | cons old rest =>
    by_cases hc : thingSpeakInterval ≤ usub tCheck lw <;>
      by_cases hr : r = 200 <;> simp [drainStep, hc, hr] <;> omega

/-- The drain step makes at most one attempt. -/
lemma drainStep_countP (st : SysState) (tCheck tSet : ℕ) (r : ℤ)
    (p : Attempt → Bool) :
    (drainStep st tCheck tSet r).2.countP p ≤ 1 := by
  obtain ⟨ts, ps, sc, ch, cd, buf, lw, ws, rg⟩ := st
  cases buf with
  | nil => simp [drainStep]
  | cons old rest =>
    by_cases hc : thingSpeakInterval ≤ usub tCheck lw <;>
      by_cases hr : r = 200 <;>
      simp [drainStep, hc, hr, List.countP_cons] <;> split <;> simp

/-- Buffer effect of the fresh-reading step: the fresh reading is pushed
exactly when the attempt happened and was rejected. -/
lemma freshStep_buffer (st : SysState) (w : WeatherData) (tCheck tSet : ℕ)
    (r : ℤ) :
    (freshStep st w tCheck tSet r).1.offlineBuffer =
      if thingSpeakInterval ≤ usub tCheck st.lastThingSpeakWrite ∧ r ≠ 200
      then bufPush st.offlineBuffer w else st.offlineBuffer := by
  by_cases hc : thingSpeakInterval ≤ usub tCheck st.lastThingSpeakWrite <;>
    by_cases hr : r = 200 <;> simp [freshStep, hc, hr]

/-- Removing the head never increases the multiplicity of an element. -/
lemma count_tail_le (l : List WeatherData) (a : WeatherData) :
    l.tail.count a ≤ l.count a := by
  cases l with
  | nil => simp
  | cons b l => simp [List.count_cons]

/-- Claim C3: when the uplink is up but the rate-limit interval has not
elapsed, the fresh reading is neither delivered (no attempt with
`secondsAgo = 0`) nor queued (the buffer can only stay or lose its head);
and in general the fresh reading enters the queue only when a delivery
was attempted and rejected, or when the uplink was down. -/
theorem claim3_rate_limited_drop :
    ∀ (expFn : ℚ → ℚ) (st : SysState) (t1 t2 t3 t4 : ℕ) (r1 r2 : ℤ),
      0 < st.sampleCount →
      (usub t1 st.lastThingSpeakWrite < thingSpeakInterval →
        ((flushCycle expFn st true t1 t2 t3 t4 r1 r2).1.offlineBuffer
            = st.offlineBuffer ∨
         (flushCycle expFn st true t1 t2 t3 t4 r1 r2).1.offlineBuffer
            = st.offlineBuffer.tail) ∧
        ∀ a ∈ (flushCycle expFn st true t1 t2 t3 t4 r1 r2).2,
          a.secondsAgo ≠ 0) ∧
      ∀ (wifiUp : Bool),
        (wifiUp = false ∨
          (thingSpeakInterval ≤ usub t1 st.lastThingSpeakWrite ∧
            r1 ≠ 200)) ∨
        ((flushCycle expFn st wifiUp t1 t2 t3 t4 r1 r2).1.offlineBuffer.count
            (mkReading expFn st) ≤
          st.offlineBuffer.count (mkReading expFn st)) := by
  intro expFn st t1 t2 t3 t4 r1 r2 hsc
  constructor
  · intro hrl
    have hc : ¬ thingSpeakInterval ≤ usub t1 st.lastThingSpeakWrite := by
      omega
    have h1 : freshStep st (mkReading expFn st) t1 t2 r1 = (st, []) := by
      simp [freshStep, hc]
    rw [flushCycle_online expFn st t1 t2 t3 t4 r1 r2 hsc, h1]
    constructor
    · simpa [resetAgg] using drainStep_buffer_cases st t3 t4 r2
    · simpa using drainStep_attempts_lag st t3 t4 r2
  · intro wifiUp
    cases wifiUp with
    | false => exact Or.inl (Or.inl rfl)
    | true =>
      by_cases he : thingSpeakInterval ≤ usub t1 st.lastThingSpeakWrite
      · by_cases hr : r1 = 200
        · right
          rw [flushCycle_online expFn st t1 t2 t3 t4 r1 r2 hsc]
          have hb : (freshStep st (mkReading expFn st) t1 t2 r1).1.offlineBuffer
              = st.offlineBuffer := by
            rw [freshStep_buffer]
            simp [hr]
          rcases drainStep_buffer_cases
              (freshStep st (mkReading expFn st) t1 t2 r1).1 t3 t4 r2 with
            h | h <;> simp [resetAgg, h, hb]
          exact count_tail_le _ _
        · exact Or.inl (Or.inr ⟨he, hr⟩)
      · right
        rw [flushCycle_online expFn st t1 t2 t3 t4 r1 r2 hsc]
        have hb : (freshStep st (mkReading expFn st) t1 t2 r1).1.offlineBuffer
            = st.offlineBuffer := by
          rw [freshStep_buffer]
          simp [he]
        rcases drainStep_buffer_cases
            (freshStep st (mkReading expFn st) t1 t2 r1).1 t3 t4 r2 with
          h | h <;> simp [resetAgg, h, hb]
        exact count_tail_le _ _

/-- Witness for C3 at a concrete rate-limited cycle. -/
theorem claim3_witness :
    (flushCycle expW stTest true 0 1 2 3 500 500).1.offlineBuffer
        = stTest.offlineBuffer ∨
    (flushCycle expW stTest true 0 1 2 3 500 500).1.offlineBuffer
        = stTest.offlineBuffer.tail :=
  ((claim3_rate_limited_drop expW stTest 0 1 2 3 500 500 (by decide)).1
    (by decide)).1

/-- Claim C5: with a non-empty queue and an elapsed rate-limit interval,
the drain delivers exactly the oldest entry with
`secondsAgo = queueLengthBeforePop * 300`; on 200 it is popped (entries
shift down) and the timestamp updated, on any other status the state is
untouched; and any flush cycle makes at most one backdated attempt. -/
theorem claim5_drain_one_oldest :
    ∀ (st : SysState) (tCheck tSet : ℕ) (r : ℤ) (old : WeatherData)
      (rest : List WeatherData),
      st.offlineBuffer = old :: rest →
      thingSpeakInterval ≤ usub tCheck st.lastThingSpeakWrite →
      ((drainStep st tCheck tSet r).2
          = [⟨old, ((old :: rest).length : ℤ) * 300, r⟩] ∧
        (r = 200 →
          (drainStep st tCheck tSet r).1.offlineBuffer = rest ∧
          (drainStep st tCheck tSet r).1.lastThingSpeakWrite = tSet) ∧
        (r ≠ 200 → (drainStep st tCheck tSet r).1 = st)) ∧
      ∀ (expFn : ℚ → ℚ) (st2 : SysState) (wifiUp : Bool) (t1 t2 t3 t4 : ℕ)
        (r1 r2 : ℤ),
        ((flushCycle expFn st2 wifiUp t1 t2 t3 t4 r1 r2).2.countP
          (fun a => decide (a.secondsAgo ≠ 0))) ≤ 1 := by
  intro st tCheck tSet r old rest hbuf helap
  constructor
  · obtain ⟨ts, ps, sc, ch, cd, buf, lw, ws, rg⟩ := st
    simp only at hbuf helap
    subst hbuf
    by_cases hr : r = 200 <;> simp [drainStep, helap, hr]
  · intro expFn st2 wifiUp t1 t2 t3 t4 r1 r2
    by_cases hsc : 0 < st2.sampleCount
    · cases wifiUp with
      | false => rw [flushCycle_offline expFn st2 t1 t2 t3 t4 r1 r2 hsc]; simp
      | true =>
        rw [flushCycle_online expFn st2 t1 t2 t3 t4 r1 r2 hsc]
        rw [List.countP_append]
        have h1 : (freshStep st2 (mkReading expFn st2) t1 t2 r1).2.countP
            (fun a => decide (a.secondsAgo ≠ 0)) = 0 := by
          by_cases hc :
              thingSpeakInterval ≤ usub t1 st2.lastThingSpeakWrite <;>
            by_cases hr : r1 = 200 <;> simp [freshStep, hc, hr]
        have h2 := drainStep_countP
          (freshStep st2 (mkReading expFn st2) t1 t2 r1).1 t3 t4 r2
          (fun a => decide (a.secondsAgo ≠ 0))
        omega
    · simp [flushCycle, hsc]

/-- A concrete state with one buffered reading, used by the C5 witness. -/
def stDrain : SysState where
  tempSum := some 0
  pressSum := some 0
  sampleCount := 0
  currentHum := 50
  currentDhtTemp := 24
  offlineBuffer := [mkR 7]
  lastThingSpeakWrite := 0
  wifiStrength := -60
  ring := initRing

/-- Witness for C5: a successful drain of a one-element queue. -/
theorem claim5_witness :
    (drainStep stDrain 20000 20002 200).2
        = [⟨mkR 7, ((mkR 7 :: ([] : List WeatherData)).length : ℤ) * 300,
            200⟩] ∧
    (drainStep stDrain 20000 20002 200).1.offlineBuffer = [] ∧
    (drainStep stDrain 20000 20002 200).1.lastThingSpeakWrite = 20002 := by
  have h := claim5_drain_one_oldest stDrain 20000 20002 200 (mkR 7) []
    rfl (by decide)
  exact ⟨h.1.1, h.1.2.1 rfl⟩

/-- Claim C6: `calculateZambretti` is a pure total function matching the
spec policy in its exact first-match order with codes 0,1,2,4,3; it only
returns codes from that set, and the boundary inputs (delta exactly ±1.6,
pressure exactly 1000) fall through to the later branches. -/
theorem claim6_classifier :
    (∀ (rs : RingState) (p q : ℚ), rs.hist rs.idx = some q →
      calculateZambretti rs (some p) =
        classifySpec p (if rs.full then some (p - q) else none)) ∧
    (∀ (rs : RingState) (pf : FVal),
      calculateZambretti rs pf = 0 ∨ calculateZambretti rs pf = 1 ∨
      calculateZambretti rs pf = 2 ∨ calculateZambretti rs pf = 4 ∨
      calculateZambretti rs pf = 3) ∧
    (∀ (rs : RingState) (p q : ℚ), rs.full = true →
      rs.hist rs.idx = some q →
      (p - q = -(8 / 5) → calculateZambretti rs (some p) ≠ 1) ∧
      (p = 1000 → calculateZambretti rs (some p) ≠ 2) ∧
      (p - q = 8 / 5 → calculateZambretti rs (some p) ≠ 4)) := by
  refine ⟨?_, ?_, ?_⟩
  · intro rs p q hq
    cases hfull : rs.full with
    | false => simp [calculateZambretti, classifySpec, hfull]
    | true =>
      simp only [calculateZambretti, classifySpec, hfull, hq, subF, fltF]
      simp
  · intro rs pf
    by_cases h0 : rs.full = false
    · left
      simp [calculateZambretti, h0]
    · cases h1 : fltF (subF pf (rs.hist rs.idx)) (some (-(8 / 5))) <;>
        cases h2 : fltF pf (some 1000) <;>
        cases h3 : fltF (some (8 / 5)) (subF pf (rs.hist rs.idx)) <;>
        simp [calculateZambretti, h0, h1, h2, h3]
  · intro rs p q hfull hq
    refine ⟨?_, ?_, ?_⟩
    · intro hd
      have h1 : fltF (subF (some p) (rs.hist rs.idx)) (some (-(8 / 5)))
          = false := by
        rw [hq]
        simp [subF, fltF, hd]
      cases h2 : fltF (some p) (some 1000) <;>
        cases h3 : fltF (some (8 / 5)) (subF (some p) (rs.hist rs.idx)) <;>
        simp [calculateZambretti, hfull, h1, h2, h3]
    · intro hp
      have h2 : fltF (some p) (some 1000) = false := by
        simp [fltF, hp]
      cases h1 : fltF (subF (some p) (rs.hist rs.idx)) (some (-(8 / 5))) <;>
        cases h3 : fltF (some (8 / 5)) (subF (some p) (rs.hist rs.idx)) <;>
        simp [calculateZambretti, hfull, h1, h2, h3]
    · intro hd
      have h3 : fltF (some (8 / 5)) (subF (some p) (rs.hist rs.idx))
          = false := by
        rw [hq]
        simp [subF, fltF, hd]
      cases h1 : fltF (subF (some p) (rs.hist rs.idx)) (some (-(8 / 5))) <;>
        cases h2 : fltF (some p) (some 1000) <;>
        simp [calculateZambretti, hfull, h1, h2, h3]

/-- A concrete fully-wrapped ring holding 1010 everywhere. -/
def ringW : RingState := ⟨fun _ => some 1010, 0, true⟩

/-- Witness for C6: scenario B of the spec, delta 1 at pressure 1011. -/
theorem claim6_witness :
    calculateZambretti ringW (some 1011) =
      classifySpec 1011 (if ringW.full then some (1011 - 1010) else none) ∧
    calculateZambretti ringW (some 1011) = 3 := by
  have h := claim6_classifier.1 ringW 1011 1010 rfl
  refine ⟨h, ?_⟩
  rw [h]
  norm_num [classifySpec, ringW]

/-- Folding one more sample into the ring. -/
lemma runRing_cons (H : ℕ) (st : RingState) (v : FVal) (vs : List FVal) :
    runRing H st (v :: vs) = runRing H (recordPressure H st v) vs := rfl

/-- Recording keeps the cursor inside the capacity. -/
lemma recordPressure_idx_lt (H : ℕ) (hH : 0 < H) (st : RingState)
    (v : FVal) : (recordPressure H st v).idx < H :=
  Nat.mod_lt _ hH

/-- The cursor after a run is the start cursor plus the number of calls,
modulo the capacity. -/
lemma runRing_idx (H : ℕ) :
    ∀ (vs : List FVal) (st : RingState), st.idx < H →
      (runRing H st vs).idx = (st.idx + vs.length) % H := by
  intro vs
  induction vs with
  | nil =>
    intro st h
    simp [runRing, Nat.mod_eq_of_lt h]
  | cons v vs ih =>
    intro st h
    rw [runRing_cons, ih _ (recordPressure_idx_lt H (by omega) st v)]
    show ((st.idx + 1) % H + vs.length) % H = (st.idx + (v :: vs).length) % H
    rw [Nat.mod_add_mod]
    congr 1
    simp [List.length_cons]
    omega

/-- The wrap flag is set exactly when the calls so far reach the end of
the array at least once. -/
lemma runRing_full (H : ℕ) :
    ∀ (vs : List FVal) (st : RingState), st.idx < H →
      ((runRing H st vs).full = true ↔
        (st.full = true ∨ H ≤ st.idx + vs.length)) := by
  intro vs
  induction vs with
  | nil =>
    intro st h
    constructor
    · intro hf
      exact Or.inl hf
    · rintro (hf | hge)
      · exact hf
      · simp at hge
        exact absurd hge (by omega)
  | cons v vs ih =>
    intro st h
    rw [runRing_cons, ih _ (recordPressure_idx_lt H (by omega) st v)]
    show ((if (st.idx + 1) % H = 0 then true else st.full) = true ∨
        H ≤ (st.idx + 1) % H + vs.length) ↔
      (st.full = true ∨ H ≤ st.idx + (v :: vs).length)
    by_cases hH : st.idx + 1 = H
    · have h0 : (st.idx + 1) % H = 0 := by
        rw [hH]
        exact Nat.mod_self H
      rw [h0]
      simp [List.length_cons]
      omega
    · have h1 : (st.idx + 1) % H = st.idx + 1 := Nat.mod_eq_of_lt (by omega)
      have h2 : ¬ (st.idx + 1 = 0) := by omega
      rw [h1]
      simp [h2, List.length_cons]
      have h3 : st.idx + 1 + vs.length = st.idx + (vs.length + 1) := by omega
      rw [h3]

/-- A run that never writes to slot `j` leaves it unchanged. -/
lemma runRing_untouched (H : ℕ) :
    ∀ (vs : List FVal) (st : RingState) (j : ℕ), st.idx < H →
      (∀ t, t < vs.length → (st.idx + t) % H ≠ j) →
      (runRing H st vs).hist j = st.hist j := by
  intro vs
  induction vs with
  | nil =>
    intro st j h hT
    rfl
  | cons v vs ih =>
    intro st j h hT
    have hprem : ∀ t, t < vs.length →
        ((recordPressure H st v).idx + t) % H ≠ j := by
      intro t ht
      show ¬ ((st.idx + 1) % H + t) % H = j
      rw [Nat.mod_add_mod]
      have he : st.idx + 1 + t = st.idx + (t + 1) := by omega
      rw [he]
      exact hT (t + 1) (by simp [List.length_cons]; omega)
    rw [runRing_cons,
      ih _ j (recordPressure_idx_lt H (by omega) st v) hprem]
    show Function.update st.hist st.idx v j = st.hist j
    have hj : st.idx ≠ j := by
      have h0 := hT 0 (by simp)
      simpa [Nat.mod_eq_of_lt h] using h0
    exact Function.update_noteq (hj.symm) v st.hist

/-- After at least `H` calls, the slot under the cursor holds the oldest
retained sample: the one recorded `H` calls ago. -/
lemma runRing_cursor (H : ℕ) :
    ∀ (vs : List FVal) (st : RingState), st.idx < H → H ≤ vs.length →
      (runRing H st vs).hist ((runRing H st vs).idx) =
        vs.getD (vs.length - H) none := by
  intro vs
  induction vs with
  | nil =>
    intro st h hlen
    simp at hlen
    exact absurd h (by omega)
  | cons v vs ih =>
    intro st h hlen
    have hH : 0 < H := by omega
    have hlt : (recordPressure H st v).idx < H :=
      recordPressure_idx_lt H hH st v
    by_cases hcase : H ≤ vs.length
    · rw [runRing_cons, ih _ hlt hcase]
      have h1 : (v :: vs).length - H = (vs.length - H) + 1 := by
        simp [List.length_cons]
        omega
      rw [h1, List.getD_cons_succ]
    · have hHeq : vs.length + 1 = H := by
        simp [List.length_cons] at hlen
        omega
      have hidx : (runRing H st (v :: vs)).idx = st.idx := by
        rw [runRing_idx H (v :: vs) st h]
        have e1 : st.idx + (v :: vs).length = st.idx + H := by
          simp [List.length_cons]
          omega
        rw [e1, Nat.add_mod_right]
        exact Nat.mod_eq_of_lt h
      rw [hidx]
      have hD : (v :: vs).length - H = 0 := by
        simp [List.length_cons]
        omega
      rw [hD, List.getD_cons_zero]
      have hprem : ∀ t, t < vs.length →
          ((recordPressure H st v).idx + t) % H ≠ st.idx := by
        intro t ht
        show ¬ ((st.idx + 1) % H + t) % H = st.idx
        rw [Nat.mod_add_mod]
        intro hEq
        have h2 : st.idx % H = (st.idx + (1 + t)) % H := by
          have e : st.idx + 1 + t = st.idx + (1 + t) := by omega
          rw [← e, hEq, Nat.mod_eq_of_lt h]
        have h3 : H ∣ (st.idx + (1 + t)) - st.idx :=
          (Nat.modEq_iff_dvd' (by omega)).mp h2
        have h4 : st.idx + (1 + t) - st.idx = 1 + t := by omega
        rw [h4] at h3
        have h5 : H ≤ 1 + t := Nat.le_of_dvd (by omega) h3
        omega
      rw [runRing_cons, runRing_untouched H vs _ st.idx hlt hprem]
      show Function.update st.hist st.idx v st.idx = v
      exact Function.update_same st.idx v st.hist

/-- Claim C7: starting from the initial ring, `delta` reports
insufficient data until exactly `HISTORY_SIZE` recordPressure calls have
occurred, and from then on returns the current pressure minus the history
entry at the cursor, which is the oldest retained sample (the one
recorded `HISTORY_SIZE` calls ago). -/
theorem claim7_ring_history :
    ∀ (vs : List FVal) (p : FVal),
      (histDelta (runRing HISTORY_SIZE initRing vs) p = none ↔
        vs.length < HISTORY_SIZE) ∧
      (HISTORY_SIZE ≤ vs.length →
        histDelta (runRing HISTORY_SIZE initRing vs) p =
          some (subF p (vs.getD (vs.length - HISTORY_SIZE) none))) := by
  intro vs p
  have h0 : initRing.idx < HISTORY_SIZE := by decide
  have hfull := runRing_full HISTORY_SIZE vs initRing h0
  constructor
  · cases hf : (runRing HISTORY_SIZE initRing vs).full with
    | false =>
      rw [hf] at hfull
      simp [initRing] at hfull
      simp [histDelta, hf]
      omega
    | true =>
      rw [hf] at hfull
      simp [initRing] at hfull
      simp [histDelta, hf]
      omega
  · intro hlen
    have hf : (runRing HISTORY_SIZE initRing vs).full = true := by
      rw [hfull]
      right
      simpa [initRing] using hlen
    have hcur := runRing_cursor HISTORY_SIZE vs initRing h0 hlen
    unfold histDelta
    rw [hf, if_pos rfl, hcur]

/-- Eighteen pressure samples of 1010, as in spec scenario B. -/
def vsW : List FVal :=
  [some 1010, some 1010, some 1010, some 1010, some 1010, some 1010,
   some 1010, some 1010, some 1010, some 1010, some 1010, some 1010,
   some 1010, some 1010, some 1010, some 1010, some 1010, some 1010]

/-- Witness for C7: eighteen samples of 1010 followed by a query at 1011
give a defined delta of exactly 1 (spec scenario B). -/
theorem claim7_witness :
    histDelta (runRing HISTORY_SIZE initRing vsW) (some 1011) =
      some (subF (some 1011) (vsW.getD (vsW.length - HISTORY_SIZE) none)) ∧
    histDelta (runRing HISTORY_SIZE initRing vsW) (some 1011) =
      some (some 1) := by
  have h := (claim7_ring_history vsW (some 1011)).2 (by decide)
  refine ⟨h, ?_⟩
  rw [h]
  norm_num [vsW, subF, HISTORY_SIZE]

end Weather
